import Mathlib

/-!
Verification of the appointment-scheduling core of the dudufisio-AI backend
against its natural-language specification.

The repository ships only its HTTP test scripts (testsprite_tests/); the
backend they exercise is not part of the source tree.  Every backend
component below is therefore modelled from the specification: IntervalMath,
AppointmentStore, ConflictGuard, SchedulingService, the patient CRUD
boundary and the login boundary.  Timestamps are modelled as natural
numbers (an ISO-8601 instant maps to its offset in minutes from an epoch);
identifiers assigned by the store are natural numbers, external identifiers
are strings.
-/

namespace DudufisioAI

/-- Modelled from the spec: `Interval`, a half-open time range `[start, end)`
(glossary of spec.md).  `end` is a Lean keyword, so the field is `endT`. -/
structure Interval where
  start : Nat
  endT : Nat
deriving Repr, DecidableEq

namespace IntervalMath

/-- Modelled from the spec: `overlaps(a, b)` is true iff
`a.start < b.end AND b.start < a.end` (spec §4.1, half-open semantics). -/
def overlaps (a b : Interval) : Bool :=
  decide (a.start < b.endT) && decide (b.start < a.endT)

/-- Modelled from the spec: `isValid(interval)` is true iff `start < end`
(spec §4.1). -/
def isValid (i : Interval) : Bool :=
  decide (i.start < i.endT)

end IntervalMath

/-- Modelled from the spec: the appointment lifecycle enum
{Scheduled, Cancelled} (spec §3). -/
inductive Status where
  | Scheduled
  | Cancelled
deriving Repr, DecidableEq

/-- Modelled from the spec: the Appointment record (spec §3). -/
structure Appointment where
  id : Nat
  patientId : String
  resourceId : String
  startTime : Nat
  endTime : Nat
  notes : String
  status : Status
deriving Repr, DecidableEq

/-- The half-open interval of an appointment. -/
def Appointment.interval (a : Appointment) : Interval :=
  ⟨a.startTime, a.endTime⟩

/-- Modelled from the spec: AppointmentStore error taxonomy
(spec §4.2: `DuplicateId` on insert, `NotFound` on remove). -/
inductive StoreError where
  | DuplicateId
  | NotFound
deriving Repr, DecidableEq

/-- Modelled from the spec: the AppointmentStore (spec §4.2) — keyed storage
with a range index ordered by `startTime`.  The list `appts` plays both the
primary map (keyed by `id`) and the range index: it is kept sorted by
`startTime`, and the spec's atomicity requirement (primary map and index
mutate together) holds by construction.  `nextId` is the fresh-id source
used by SchedulingService. -/
structure Store where
  appts : List Appointment
  nextId : Nat
deriving Repr, DecidableEq

namespace Store

/-- The empty store. -/
def empty : Store := ⟨[], 0⟩

/-- Modelled from the spec: `get(id) -> Option<Appointment>` (spec §4.2). -/
def get (s : Store) (id : Nat) : Option Appointment :=
  s.appts.find? (fun a => a.id == id)

/-- Insertion into the `startTime`-ordered range index. -/
def insertSorted (a : Appointment) : List Appointment → List Appointment
  | [] => [a]
  | b :: rest =>
      if a.startTime ≤ b.startTime then a :: b :: rest
      else b :: insertSorted a rest

/-- Modelled from the spec: `insert(appointment) -> Result<(), DuplicateId>`
(spec §4.2) — fails if `id` is already present, otherwise stores the record
into the `startTime`-ordered index. -/
def insert (s : Store) (a : Appointment) : Except StoreError Store :=
  if s.appts.any (fun b => b.id == a.id) then .error .DuplicateId
  else .ok { s with appts := insertSorted a s.appts }

/-- Does the appointment match the range filter of spec §4.2: status
Scheduled, resource match (all resources when omitted), interval overlap
with the half-open query range? -/
def inRange (resourceId : Option String) (start endT : Nat) (a : Appointment) : Bool :=
  a.status == Status.Scheduled &&
  (match resourceId with
   | none => true
   | some r => a.resourceId == r) &&
  IntervalMath.overlaps a.interval ⟨start, endT⟩

/-- Modelled from the spec: `listByRange(resourceId, start, end)` (spec §4.2)
— every Scheduled appointment for `resourceId` (all resources when omitted)
whose interval overlaps `[start, end)`, ordered by `startTime` ascending.
The order comes from the index being kept sorted. -/
def listByRange (s : Store) (resourceId : Option String) (start endT : Nat) :
    List Appointment :=
  s.appts.filter (inRange resourceId start endT)

/-- Modelled from the spec: `remove(id) -> Result<(), NotFound>` (spec §4.2),
in the hard-delete variant spec §3/§9 leaves to the implementer: the record
is purged from the primary map and the range index. -/
def remove (s : Store) (id : Nat) : Except StoreError Store :=
  if s.appts.any (fun a => a.id == id) then
    .ok { s with appts := s.appts.filter (fun a => a.id != id) }
  else .error .NotFound

end Store

/-- Modelled from the spec: the CreateError taxonomy of
SchedulingService.create (spec §4.4). -/
inductive CreateError where
  | InvalidInterval
  | PatientNotFound
  | SchedulingConflict
  | PastDated
deriving Repr, DecidableEq

/-- An observable interaction with the AppointmentStore or the
ConflictGuard, recorded so that "fails before any store or guard
interaction" (spec §8) is a statement about the trace. -/
inductive Event where
  | guardReserve (resourceId : String) (i : Interval)
  | guardRelease (resourceId : String)
  | storeInsert (id : Nat)
  | storeRemove (id : Nat)
deriving Repr, DecidableEq

/-- Modelled from the spec: `ConflictGuard.reserve(resourceId, interval)`
(spec §4.3) — atomically verifies via `AppointmentStore.listByRange` that no
Scheduled appointment for `resourceId` overlaps `interval`.  The guard's
per-resource mutual exclusion (spec §5) is modelled by executing requests in
their serialization order, so `reserve` reduces to the atomic check. -/
def ConflictGuard.reserve (s : Store) (resourceId : String) (i : Interval) :
    Bool :=
  (s.listByRange (some resourceId) i.start i.endT).isEmpty

/-- Modelled from the spec: the SchedulingService state (spec §4.4) together
with its collaborators: the PatientDirectory (spec §6) as the list of
existing patient ids, and the clock used by the past-dated policy. -/
structure Service where
  patients : List String
  now : Nat
  store : Store
deriving Repr, DecidableEq

namespace Service

/-- A service over an empty store. -/
def init (patients : List String) (now : Nat) : Service :=
  ⟨patients, now, Store.empty⟩

/-- Modelled from the spec:
`create(patientId, resourceId, startTime, endTime, notes)` (spec §4.4).
Validation: interval validity first — spec §8 requires the `InvalidInterval`
failure to precede any store or guard interaction — then patient existence
via PatientDirectory, then the past-dated policy, then
`ConflictGuard.reserve`.  On success a fresh unique id is assigned, status
is Scheduled, the record is persisted via `Store.insert` and the guard
token released.  Returns the result, the post-state (unchanged on failure)
and the trace of store/guard interactions. -/
def create (sv : Service) (patientId resourceId : String)
    (startTime endTime : Nat) (notes : String) :
    Except CreateError Appointment × Service × List Event :=
  if ¬ IntervalMath.isValid ⟨startTime, endTime⟩ then
    (.error .InvalidInterval, sv, [])
  else if ¬ sv.patients.contains patientId then
    (.error .PatientNotFound, sv, [])
  else if startTime < sv.now then
    (.error .PastDated, sv, [])
  else if ¬ ConflictGuard.reserve sv.store resourceId ⟨startTime, endTime⟩ then
    (.error .SchedulingConflict, sv, [.guardReserve resourceId ⟨startTime, endTime⟩])
  else
    let a : Appointment :=
      ⟨sv.store.nextId, patientId, resourceId, startTime, endTime, notes, .Scheduled⟩
    match sv.store.insert a with
    | .error _ => (.error .SchedulingConflict, sv,
        [.guardReserve resourceId ⟨startTime, endTime⟩, .guardRelease resourceId])
    | .ok st =>
        (.ok a, { sv with store := { st with nextId := st.nextId + 1 } },
         [.guardReserve resourceId ⟨startTime, endTime⟩, .storeInsert a.id,
          .guardRelease resourceId])

/-- Modelled from the spec: `get(id)` delegates to `AppointmentStore.get`
(spec §4.4). -/
def get (sv : Service) (id : Nat) : Option Appointment :=
  sv.store.get id

/-- Modelled from the spec:
`listByDateRange(startDate, endDate, resourceId?)` (spec §4.4) — validates
`startDate ≤ endDate` (HTTP 400 on an invalid range, spec §6), then
delegates to `AppointmentStore.listByRange`; an empty result is not an
error. -/
def listByDateRange (sv : Service) (startDate endDate : Nat)
    (resourceId : Option String) : Except Unit (List Appointment) :=
  if startDate ≤ endDate then
    .ok (sv.store.listByRange resourceId startDate endDate)
  else .error ()

/-- Modelled from the spec: `delete(id)` delegates to
`AppointmentStore.remove` (spec §4.4); a second delete on an already-removed
id reports NotFound. -/
def delete (sv : Service) (id : Nat) : Except StoreError Service :=
  match sv.store.remove id with
  | .error e => .error e
  | .ok st => .ok { sv with store := st }

end Service

/-- A public SchedulingService operation that mutates state: create or
delete (spec §4.4; `get` and `listByDateRange` are read-only). -/
inductive Op where
  | create (patientId resourceId : String) (startTime endTime : Nat) (notes : String)
  | delete (id : Nat)
deriving Repr, DecidableEq

/-- Execute one operation; a failed operation leaves the state unchanged. -/
def Service.step (sv : Service) : Op → Service
  | .create p r s e n => (sv.create p r s e n).2.1
  | .delete id =>
      match sv.delete id with
      | .ok sv' => sv'
      | .error _ => sv

/-- Execute a sequence of operations in order. -/
def Service.run (sv : Service) (ops : List Op) : Service :=
  ops.foldl Service.step sv

/-- Two appointments are compatible when they are not both Scheduled on the
same resource with overlapping intervals (the non-overlap invariant of
spec §3 for a pair). -/
def Appointment.compatible (a b : Appointment) : Prop :=
  a.status = .Scheduled → b.status = .Scheduled → a.resourceId = b.resourceId →
    IntervalMath.overlaps a.interval b.interval = false

/-- The store-wide non-overlap invariant of spec §3: no two distinct
appointments with status Scheduled on the same resource have overlapping
`[startTime, endTime)` intervals. -/
def Store.noOverlap (s : Store) : Prop :=
  ∀ a ∈ s.appts, ∀ b ∈ s.appts, a.id ≠ b.id → Appointment.compatible a b

/-- Every stored id is below the fresh-id source (so a newly assigned id is
unique across the entire store, spec §3). -/
def Store.freshIds (s : Store) : Prop :=
  ∀ a ∈ s.appts, a.id < s.nextId

/-- The range index is ordered by `startTime` ascending (spec §4.2). -/
def Store.sortedByStart (s : Store) : Prop :=
  s.appts.Pairwise (fun a b => a.startTime ≤ b.startTime)

/-- The conjunction of the store's structural invariants. -/
def Store.inv (s : Store) : Prop :=
  s.noOverlap ∧ s.freshIds ∧ s.sortedByStart

/-! ### Helper lemmas -/

theorem IntervalMath.overlaps_symm (a b : Interval) :
    IntervalMath.overlaps a b = IntervalMath.overlaps b a := by
  simp [IntervalMath.overlaps, Bool.and_comm]

theorem Appointment.compatible_symm {a b : Appointment}
    (h : a.compatible b) : b.compatible a := by
  intro hb ha hr
  rw [IntervalMath.overlaps_symm]
  exact h ha hb hr.symm

theorem Store.mem_insertSorted {x a : Appointment} {l : List Appointment} :
    x ∈ Store.insertSorted a l ↔ x = a ∨ x ∈ l := by
  induction l with
  | nil => simp [Store.insertSorted]
  | cons b rest ih =>
      simp only [Store.insertSorted]
      split
      · simp [List.mem_cons]
      · simp only [List.mem_cons, ih]
        tauto

theorem Store.pairwise_insertSorted {a : Appointment} {l : List Appointment}
    (h : l.Pairwise (fun x y => x.startTime ≤ y.startTime)) :
    (Store.insertSorted a l).Pairwise (fun x y => x.startTime ≤ y.startTime) := by
  induction l with
  | nil => simp [Store.insertSorted]
  | cons b rest ih =>
      rw [List.pairwise_cons] at h
      obtain ⟨hb, hrest⟩ := h
      simp only [Store.insertSorted]
      split
      case isTrue hle =>
        refine List.pairwise_cons.mpr ⟨?_, List.pairwise_cons.mpr ⟨hb, hrest⟩⟩
        intro x hx
        rcases List.mem_cons.mp hx with rfl | hx
        · exact hle
        · exact le_trans hle (hb x hx)
      case isFalse hgt =>
        refine List.pairwise_cons.mpr ⟨?_, ih hrest⟩
        intro x hx
        rcases Store.mem_insertSorted.mp hx with rfl | hx
        · exact le_of_not_le hgt
        · exact hb x hx

theorem Store.find?_insertSorted_self {a : Appointment} {l : List Appointment}
    (h : ∀ b ∈ l, b.id ≠ a.id) :
    (Store.insertSorted a l).find? (fun x => x.id == a.id) = some a := by
  induction l with
  | nil => simp [Store.insertSorted, List.find?]
  | cons b rest ih =>
      simp only [Store.insertSorted]
      split
      · simp [List.find?]
      · have hb : (b.id == a.id) = false := by
          simpa using h b (List.mem_cons_self b rest)
        rw [List.find?_cons, hb]
        exact ih fun c hc => h c (List.mem_cons_of_mem b hc)

theorem noOverlapL_insert {l : List Appointment} {a : Appointment}
    (hno : ∀ x ∈ l, ∀ y ∈ l, x.id ≠ y.id → x.compatible y)
    (hc : ∀ b ∈ l, a.compatible b) :
    ∀ x ∈ Store.insertSorted a l, ∀ y ∈ Store.insertSorted a l,
      x.id ≠ y.id → x.compatible y := by
  intro x hx y hy hxy
  rcases Store.mem_insertSorted.mp hx with hxa | hxl
  · rcases Store.mem_insertSorted.mp hy with hya | hyl
    · exact absurd (by rw [hxa, hya]) hxy
    · rw [hxa]
      exact hc y hyl
  · rcases Store.mem_insertSorted.mp hy with hya | hyl
    · rw [hya]
      exact Appointment.compatible_symm (hc x hxl)
    · exact hno x hxl y hyl hxy

theorem compatible_of_filter_empty {l : List Appointment}
    {r : String} {s e : Nat} {a : Appointment}
    (hfe : l.filter (Store.inRange (some r) s e) = [])
    (ha : a.resourceId = r) (hi : a.interval = ⟨s, e⟩) :
    ∀ b ∈ l, a.compatible b := by
  intro b hb _ hbs hres
  have hfalse : Store.inRange (some r) s e b = false :=
    Bool.eq_false_iff.mpr (List.filter_eq_nil_iff.mp hfe b hb)
  have hres' : b.resourceId = r := by rw [← hres, ha]
  simp only [Store.inRange, hbs, hres', beq_self_eq_true, Bool.true_and] at hfalse
  rw [hi, IntervalMath.overlaps_symm]
  exact hfalse

/-- The appointment record a successful create stores: fresh id from the
store's counter, status Scheduled (spec §4.4). -/
def Service.newAppt (sv : Service) (patientId resourceId : String)
    (startTime endTime : Nat) (notes : String) : Appointment :=
  ⟨sv.store.nextId, patientId, resourceId, startTime, endTime, notes, .Scheduled⟩

theorem Service.create_invalid {sv : Service} {p r : String} {s e : Nat}
    {n : String} (h : e ≤ s) :
    sv.create p r s e n = (.error .InvalidInterval, sv, []) := by
  have hval : IntervalMath.isValid ⟨s, e⟩ = false := by
    simp [IntervalMath.isValid, Nat.not_lt.mpr h]
  unfold Service.create
  rw [hval]
  simp

theorem Service.create_success {sv : Service} {p r : String} {s e : Nat}
    {n : String} (hv : s < e) (hp : p ∈ sv.patients) (hnow : sv.now ≤ s)
    (hfresh : sv.store.freshIds)
    (hclear : sv.store.listByRange (some r) s e = []) :
    sv.create p r s e n =
      (.ok (sv.newAppt p r s e n),
       { sv with store := ⟨Store.insertSorted (sv.newAppt p r s e n) sv.store.appts,
                           sv.store.nextId + 1⟩ },
       [.guardReserve r ⟨s, e⟩, .storeInsert sv.store.nextId, .guardRelease r]) := by
  have hcont : sv.patients.contains p = true := by simpa using hp
  have hres : ConflictGuard.reserve sv.store r ⟨s, e⟩ = true := by
    rw [ConflictGuard.reserve, hclear]
    rfl
  have hany : (sv.store.appts.any fun b => b.id == sv.store.nextId) = false := by
    rw [List.any_eq_false]
    intro b hb
    simpa using Nat.ne_of_lt (hfresh b hb)
  unfold Service.create
  rw [hres, hcont]
  simp only [IntervalMath.isValid, decide_eq_true_eq, hv, not_true, if_false,
    Bool.not_true, not_false_iff, ite_false, ite_true, Nat.not_lt.mpr hnow,
    Service.newAppt]
  rw [Store.insert]
  simp only [Service.newAppt] at hany ⊢
  rw [hany]
  simp

theorem Service.create_conflict {sv : Service} {p r : String} {s e : Nat}
    {n : String} (hv : s < e) (hp : p ∈ sv.patients) (hnow : sv.now ≤ s)
    (b : Appointment) (hb : b ∈ sv.store.appts) (hbs : b.status = .Scheduled)
    (hbr : b.resourceId = r)
    (hov : IntervalMath.overlaps b.interval ⟨s, e⟩ = true) :
    sv.create p r s e n =
      (.error .SchedulingConflict, sv, [.guardReserve r ⟨s, e⟩]) := by
  have hcont : sv.patients.contains p = true := by simpa using hp
  have hbmem : b ∈ sv.store.listByRange (some r) s e :=
    List.mem_filter.mpr ⟨hb, by simp [Store.inRange, hbs, hbr, hov]⟩
  have hres : ConflictGuard.reserve sv.store r ⟨s, e⟩ = false := by
    rw [ConflictGuard.reserve]
    cases hmm : sv.store.listByRange (some r) s e with
    | nil => rw [hmm] at hbmem; cases hbmem
    | cons x xs => rfl
  unfold Service.create
  rw [hres, hcont]
  simp [IntervalMath.isValid, hv, Nat.not_lt.mpr hnow]

theorem Service.create_noPatient {sv : Service} {p r : String} {s e : Nat}
    {n : String} (hv : s < e) (hp : p ∉ sv.patients) :
    sv.create p r s e n = (.error .PatientNotFound, sv, []) := by
  have hcont : sv.patients.contains p = false := by simpa using hp
  unfold Service.create
  rw [hcont]
  simp [IntervalMath.isValid, hv]

theorem Service.create_past {sv : Service} {p r : String} {s e : Nat}
    {n : String} (hv : s < e) (hp : p ∈ sv.patients) (hlt : s < sv.now) :
    sv.create p r s e n = (.error .PastDated, sv, []) := by
  have hcont : sv.patients.contains p = true := by simpa using hp
  unfold Service.create
  rw [hcont]
  simp [IntervalMath.isValid, hv, hlt]

theorem Store.inv_filter {s : Store} (h : s.inv) (p : Appointment → Bool) :
    (Store.mk (s.appts.filter p) s.nextId).inv := by
  obtain ⟨hno, hfresh, hsorted⟩ := h
  refine ⟨?_, ?_, ?_⟩
  · intro a ha b hb
    exact hno a (List.mem_of_mem_filter ha) b (List.mem_of_mem_filter hb)
  · intro a ha
    exact hfresh a (List.mem_of_mem_filter ha)
  · exact hsorted.sublist (List.filter_sublist _)

theorem Service.create_inv {sv : Service} (h : sv.store.inv)
    (p r : String) (s e : Nat) (n : String) :
    ((sv.create p r s e n).2.1).store.inv := by
  by_cases hv : s < e
  · by_cases hp : p ∈ sv.patients
    · by_cases hnow : sv.now ≤ s
      · by_cases hclear : sv.store.listByRange (some r) s e = []
        · obtain ⟨hno, hfresh, hsorted⟩ := h
          have hcomp : ∀ b ∈ sv.store.appts, (sv.newAppt p r s e n).compatible b :=
            compatible_of_filter_empty hclear rfl rfl
          rw [Service.create_success hv hp hnow hfresh hclear]
          refine ⟨?_, ?_, ?_⟩
          · intro a ha b hb
            exact noOverlapL_insert hno hcomp a ha b hb
          · intro a ha
            rcases Store.mem_insertSorted.mp ha with haa | hal
            · rw [haa]
              exact Nat.lt_succ_self _
            · exact Nat.lt_succ_of_lt (hfresh a hal)
          · exact Store.pairwise_insertSorted hsorted
        · rcases List.exists_mem_of_ne_nil _ hclear with ⟨b, hbmem⟩
          have hb : b ∈ sv.store.appts := List.mem_of_mem_filter hbmem
          have hrange : Store.inRange (some r) s e b = true :=
            List.of_mem_filter hbmem
          have hbs : b.status = Status.Scheduled := by
            simp only [Store.inRange, Bool.and_eq_true, beq_iff_eq] at hrange
            exact hrange.1.1
          have hbr : b.resourceId = r := by
            simp only [Store.inRange, Bool.and_eq_true, beq_iff_eq] at hrange
            exact hrange.1.2
          have hov : IntervalMath.overlaps b.interval ⟨s, e⟩ = true := by
            simp only [Store.inRange, Bool.and_eq_true] at hrange
            exact hrange.2
          rw [Service.create_conflict hv hp hnow b hb hbs hbr hov]
          exact h
      · rw [Service.create_past hv hp (Nat.lt_of_not_le hnow)]
        exact h
    · rw [Service.create_noPatient hv hp]
      exact h
  · rw [Service.create_invalid (Nat.le_of_not_lt hv)]
    exact h

theorem Store.remove_found {s : Store} {id : Nat}
    (h : (s.appts.any fun a => a.id == id) = true) :
    s.remove id = .ok ⟨s.appts.filter (fun a => a.id != id), s.nextId⟩ := by
  unfold Store.remove
  rw [if_pos h]

theorem Store.remove_notFound {s : Store} {id : Nat}
    (h : (s.appts.any fun a => a.id == id) = false) :
    s.remove id = .error .NotFound := by
  unfold Store.remove
  rw [h]
  simp

theorem Service.delete_found {sv : Service} {id : Nat}
    (h : (sv.store.appts.any fun a => a.id == id) = true) :
    sv.delete id =
      .ok { sv with store := ⟨sv.store.appts.filter (fun a => a.id != id),
                              sv.store.nextId⟩ } := by
  unfold Service.delete
  rw [Store.remove_found h]

theorem Service.delete_notFound {sv : Service} {id : Nat}
    (h : (sv.store.appts.any fun a => a.id == id) = false) :
    sv.delete id = .error .NotFound := by
  unfold Service.delete
  rw [Store.remove_notFound h]

theorem Service.delete_inv {sv : Service} (h : sv.store.inv) (id : Nat) :
    (match sv.delete id with | .ok sv' => sv' | .error _ => sv).store.inv := by
  by_cases hany : (sv.store.appts.any fun a => a.id == id) = true
  · rw [Service.delete_found hany]
    exact Store.inv_filter h _
  · rw [Service.delete_notFound (Bool.eq_false_iff.mpr hany)]
    exact h

theorem Service.step_inv {sv : Service} (h : sv.store.inv) (op : Op) :
    (sv.step op).store.inv := by
  cases op with
  | create p r s e n => exact Service.create_inv h p r s e n
  | delete id => exact Service.delete_inv h id

theorem Store.inv_empty : Store.empty.inv := by
  refine ⟨?_, ?_, ?_⟩ <;>
    simp [Store.empty, Store.noOverlap, Store.freshIds, Store.sortedByStart]

theorem Service.run_inv {sv : Service} (h : sv.store.inv) (ops : List Op) :
    (sv.run ops).store.inv := by
  induction ops generalizing sv with
  | nil => exact h
  | cons op rest ih => exact ih (Service.step_inv h op)

/-! ### Claim theorems -/

/-- C1: for every sequence of SchedulingService operations (create, delete)
starting from an empty store, every reachable store state satisfies: no two
appointments with status Scheduled and the same resourceId have overlapping
half-open `[startTime, endTime)` intervals. -/
theorem C1_reachable_noOverlap (patients : List String) (now : Nat)
    (ops : List Op) :
    ((Service.init patients now).run ops).store.noOverlap :=
  (Service.run_inv Store.inv_empty ops).1

/-- C4: `IntervalMath.overlaps a b` is true exactly when
`a.start < b.end` and `b.start < a.end`; intervals that merely touch at an
endpoint do not overlap. -/
theorem C4_overlaps_iff (a b : Interval) :
    (IntervalMath.overlaps a b = true ↔ a.start < b.endT ∧ b.start < a.endT) ∧
    (a.endT = b.start ∨ b.endT = a.start →
      IntervalMath.overlaps a b = false) := by
  constructor
  · simp [IntervalMath.overlaps]
  · intro h
    rcases h with h | h
    · rw [IntervalMath.overlaps, ← h]
      simp
    · rw [IntervalMath.overlaps, ← h]
      simp

/-- Witness for C4: `[600, 630)` and `[630, 660)` touch at 630 and do not
overlap. -/
theorem C4_overlaps_iff_witness :
    IntervalMath.overlaps ⟨600, 630⟩ ⟨630, 660⟩ = false :=
  (C4_overlaps_iff ⟨600, 630⟩ ⟨630, 660⟩).2 (Or.inl rfl)

/-- C6: a create with `endTime ≤ startTime` fails with `InvalidInterval`,
leaves the service state unchanged, and performs no AppointmentStore or
ConflictGuard interaction (empty event trace). -/
theorem C6_invalid_interval_early (sv : Service) (p r n : String)
    (s e : Nat) (h : e ≤ s) :
    sv.create p r s e n = (.error .InvalidInterval, sv, []) :=
  Service.create_invalid h

/-- Witness for C6 at the spec's example (10:00Z–09:00Z as minutes of the
day): the result is `InvalidInterval`, the state is untouched and the trace
is empty. -/
theorem C6_invalid_interval_early_witness :
    (Service.init ["p1"] 0).create "p1" "r1" 600 540 "checkup" =
      (.error .InvalidInterval, Service.init ["p1"] 0, []) :=
  C6_invalid_interval_early (Service.init ["p1"] 0) "p1" "r1" "checkup"
    600 540 (by decide)

/-- C2: when a Scheduled appointment on resource `r` overlaps `[s, e)`,
`create` on `r` fails with `SchedulingConflict`, while the identical create
on a resource `r2` with no overlapping Scheduled appointment succeeds. -/
theorem C2_conflict_scoped_to_resource (sv : Service) (p r r2 n : String)
    (s e : Nat) (hv : s < e) (hp : p ∈ sv.patients) (hnow : sv.now ≤ s)
    (hfresh : sv.store.freshIds)
    (b : Appointment) (hb : b ∈ sv.store.appts) (hbs : b.status = .Scheduled)
    (hbr : b.resourceId = r)
    (hov : IntervalMath.overlaps b.interval ⟨s, e⟩ = true)
    (hclear2 : sv.store.listByRange (some r2) s e = []) :
    (sv.create p r s e n).1 = .error .SchedulingConflict ∧
    ∃ a : Appointment, (sv.create p r2 s e n).1 = .ok a := by
  constructor
  · rw [Service.create_conflict hv hp hnow b hb hbs hbr hov]
  · exact ⟨sv.newAppt p r2 s e n,
      by rw [Service.create_success hv hp hnow hfresh hclear2]⟩

/-- Witness for C2 at the spec's round-trip example: with `[600, 630)`
Scheduled on `r1`, creating `[615, 645)` on `r1` returns a conflict and the
same create on `r2` succeeds. -/
theorem C2_conflict_scoped_to_resource_witness :
    (Service.mk ["p1"] 0 ⟨[⟨0, "p1", "r1", 600, 630, "", .Scheduled⟩], 1⟩
        |>.create "p1" "r1" 615 645 "n").1 = .error .SchedulingConflict ∧
    ∃ a : Appointment,
      (Service.mk ["p1"] 0 ⟨[⟨0, "p1", "r1", 600, 630, "", .Scheduled⟩], 1⟩
        |>.create "p1" "r2" 615 645 "n").1 = .ok a :=
  C2_conflict_scoped_to_resource
    (Service.mk ["p1"] 0 ⟨[⟨0, "p1", "r1", 600, 630, "", .Scheduled⟩], 1⟩)
    "p1" "r1" "r2" "n" 615 645 (by decide) (by decide) (by decide)
    (by intro a ha; fin_cases ha; decide)
    ⟨0, "p1", "r1", 600, 630, "", .Scheduled⟩ (by decide) rfl rfl (by decide)
    (by decide)

/-- C3: a create whose patient exists, whose interval is valid and not
past-dated, and whose resource has no overlapping Scheduled appointment
succeeds: it returns the stored appointment with a fresh unique id and
status Scheduled, and a subsequent `get` on that id returns the identical
record. -/
theorem C3_create_roundtrip (sv : Service) (p r n : String) (s e : Nat)
    (hv : s < e) (hp : p ∈ sv.patients) (hnow : sv.now ≤ s)
    (hfresh : sv.store.freshIds)
    (hclear : sv.store.listByRange (some r) s e = []) :
    ∃ a sv' tr, sv.create p r s e n = (.ok a, sv', tr) ∧
      a.status = .Scheduled ∧
      a.id = sv.store.nextId ∧
      (∀ b ∈ sv.store.appts, b.id ≠ a.id) ∧
      sv'.get a.id = some a := by
  refine ⟨sv.newAppt p r s e n, _, _,
    Service.create_success hv hp hnow hfresh hclear, rfl, rfl, ?_, ?_⟩
  · intro b hb
    exact Nat.ne_of_lt (hfresh b hb)
  · rw [Service.get, Store.get]
    exact Store.find?_insertSorted_self fun b hb => Nat.ne_of_lt (hfresh b hb)

/-- Witness for C3: a concrete valid create on an empty store succeeds and
round-trips through `get`. -/
theorem C3_create_roundtrip_witness :
    ∃ a sv' tr,
      (Service.init ["p1"] 0).create "p1" "r1" 600 630 "checkup" =
        (.ok a, sv', tr) ∧
      a.status = .Scheduled ∧
      a.id = (Service.init ["p1"] 0).store.nextId ∧
      (∀ b ∈ (Service.init ["p1"] 0).store.appts, b.id ≠ a.id) ∧
      sv'.get a.id = some a :=
  C3_create_roundtrip (Service.init ["p1"] 0) "p1" "r1" "checkup" 600 630
    (by decide) (by decide) (by decide) (by intro a ha; cases ha) (by decide)

theorem Store.inRange_iff {ro : Option String} {sD eD : Nat}
    {a : Appointment} :
    Store.inRange ro sD eD a = true ↔
      a.status = .Scheduled ∧ (∀ r, ro = some r → a.resourceId = r) ∧
      IntervalMath.overlaps a.interval ⟨sD, eD⟩ = true := by
  cases ro with
  | none => simp [Store.inRange, and_assoc]
  | some r =>
      simp only [Store.inRange, Bool.and_eq_true, beq_iff_eq,
        Option.some.injEq, and_assoc]
      constructor
      · rintro ⟨h1, h2, h3⟩
        exact ⟨h1, fun r' hr' => hr' ▸ h2, h3⟩
      · rintro ⟨h1, h2, h3⟩
        exact ⟨h1, h2 r rfl, h3⟩

/-- C5: for `startDate ≤ endDate`, `listByDateRange` returns exactly the
Scheduled appointments (restricted to `resourceId` when given) whose
intervals overlap the half-open query range, sorted by `startTime`
ascending, and an empty match yields an empty sequence rather than an
error. -/
theorem C5_listByDateRange_exact (sv : Service) (startDate endDate : Nat)
    (ro : Option String) (hle : startDate ≤ endDate)
    (hsorted : sv.store.sortedByStart) :
    ∃ l, sv.listByDateRange startDate endDate ro = .ok l ∧
      (∀ a, a ∈ l ↔ a ∈ sv.store.appts ∧ a.status = .Scheduled ∧
        (∀ r, ro = some r → a.resourceId = r) ∧
        IntervalMath.overlaps a.interval ⟨startDate, endDate⟩ = true) ∧
      l.Pairwise (fun x y => x.startTime ≤ y.startTime) := by
  refine ⟨sv.store.listByRange ro startDate endDate, ?_, ?_, ?_⟩
  · rw [Service.listByDateRange, if_pos hle]
  · intro a
    rw [Store.listByRange, List.mem_filter, Store.inRange_iff]
  · exact hsorted.sublist (List.filter_sublist _)

/-- Witness for C5 at the spec's example: listing the range
`[2025-01-01, 2025-12-31]` (as day numbers) on an empty store yields the
empty sequence, not an error. -/
theorem C5_listByDateRange_exact_witness :
    ∃ l, (Service.init [] 0).listByDateRange 20250101 20251231 none = .ok l ∧
      (∀ a, a ∈ l ↔ a ∈ (Service.init [] 0).store.appts ∧
        a.status = .Scheduled ∧
        (∀ r, (none : Option String) = some r → a.resourceId = r) ∧
        IntervalMath.overlaps a.interval ⟨20250101, 20251231⟩ = true) ∧
      l.Pairwise (fun x y => x.startTime ≤ y.startTime) :=
  C5_listByDateRange_exact (Service.init [] 0) 20250101 20251231 none
    (by decide) (by simp [Store.sortedByStart, Service.init, Store.empty])

/-- C7: after a successful delete of a stored appointment id, `get` on that
id returns none, no `listByDateRange` result contains the id, and a second
delete reports NotFound instead of succeeding idempotently. -/
theorem C7_delete_then_gone (sv : Service) (id : Nat) (a : Appointment)
    (hget : sv.get id = some a) :
    ∃ sv', sv.delete id = .ok sv' ∧
      sv'.get id = none ∧
      (∀ sD eD ro l, sv'.listByDateRange sD eD ro = .ok l →
        ∀ b ∈ l, b.id ≠ id) ∧
      sv'.delete id = .error .NotFound := by
  have hget' : sv.store.appts.find? (fun x => x.id == id) = some a := hget
  have hmem : a ∈ sv.store.appts := List.mem_of_find?_eq_some hget'
  have haid := List.find?_some hget'
  have hany : (sv.store.appts.any fun x => x.id == id) = true :=
    List.any_eq_true.mpr ⟨a, hmem, haid⟩
  refine ⟨_, Service.delete_found hany, ?_, ?_, ?_⟩
  · rw [Service.get, Store.get]
    apply List.find?_eq_none.mpr
    intro x hx
    simpa using List.of_mem_filter hx
  · intro sD eD ro l hl b hb
    rw [Service.listByDateRange] at hl
    split at hl
    · cases hl
      have hbmem := List.mem_of_mem_filter hb
      simpa using List.of_mem_filter hbmem
    · cases hl
  · apply Service.delete_notFound
    rw [List.any_eq_false]
    intro x hx
    simpa using List.of_mem_filter hx

/-- Witness for C7: deleting the single stored appointment makes `get`
return none, empties every listing, and a second delete reports NotFound. -/
theorem C7_delete_then_gone_witness :
    ∃ sv', (Service.mk ["p1"] 0
        ⟨[⟨0, "p1", "r1", 600, 630, "", .Scheduled⟩], 1⟩).delete 0 =
          .ok sv' ∧
      sv'.get 0 = none ∧
      (∀ sD eD ro l, sv'.listByDateRange sD eD ro = .ok l →
        ∀ b ∈ l, b.id ≠ 0) ∧
      sv'.delete 0 = .error .NotFound :=
  C7_delete_then_gone
    (Service.mk ["p1"] 0 ⟨[⟨0, "p1", "r1", 600, 630, "", .Scheduled⟩], 1⟩)
    0 ⟨0, "p1", "r1", 600, 630, "", .Scheduled⟩ (by decide)

/-- C8: two concurrent creates on the same resource with mutually
overlapping intervals, neither conflicting with any prior appointment:
under the ConflictGuard's guarantee that reservation attempts on one
resource are serialized in arrival order (spec §5), whichever request is
serialized first succeeds and the other fails with a conflict — in both
arrival orders exactly one success and one `SchedulingConflict`, never two
successes and never two failures. -/
theorem C8_concurrent_creates_one_wins (sv : Service)
    (p1 p2 r n1 n2 : String) (s1 e1 s2 e2 : Nat)
    (hv1 : s1 < e1) (hv2 : s2 < e2)
    (hp1 : p1 ∈ sv.patients) (hp2 : p2 ∈ sv.patients)
    (hnow1 : sv.now ≤ s1) (hnow2 : sv.now ≤ s2)
    (hfresh : sv.store.freshIds)
    (hclear1 : sv.store.listByRange (some r) s1 e1 = [])
    (hclear2 : sv.store.listByRange (some r) s2 e2 = [])
    (hov : IntervalMath.overlaps ⟨s1, e1⟩ ⟨s2, e2⟩ = true) :
    (∃ a, (sv.create p1 r s1 e1 n1).1 = .ok a ∧
      (((sv.create p1 r s1 e1 n1).2.1).create p2 r s2 e2 n2).1 =
        .error .SchedulingConflict) ∧
    (∃ a, (sv.create p2 r s2 e2 n2).1 = .ok a ∧
      (((sv.create p2 r s2 e2 n2).2.1).create p1 r s1 e1 n1).1 =
        .error .SchedulingConflict) := by
  constructor
  · refine ⟨sv.newAppt p1 r s1 e1 n1, ?_, ?_⟩
    · rw [Service.create_success hv1 hp1 hnow1 hfresh hclear1]
    · have hsecond :
          (Service.mk sv.patients sv.now
            ⟨Store.insertSorted (sv.newAppt p1 r s1 e1 n1) sv.store.appts,
             sv.store.nextId + 1⟩).create p2 r s2 e2 n2 =
          (.error .SchedulingConflict,
           Service.mk sv.patients sv.now
            ⟨Store.insertSorted (sv.newAppt p1 r s1 e1 n1) sv.store.appts,
             sv.store.nextId + 1⟩,
           [.guardReserve r ⟨s2, e2⟩]) :=
        Service.create_conflict hv2 hp2 hnow2 (sv.newAppt p1 r s1 e1 n1)
          (Store.mem_insertSorted.mpr (Or.inl rfl)) rfl rfl hov
      rw [Service.create_success hv1 hp1 hnow1 hfresh hclear1]
      show ((Service.mk sv.patients sv.now
          ⟨Store.insertSorted (sv.newAppt p1 r s1 e1 n1) sv.store.appts,
           sv.store.nextId + 1⟩).create p2 r s2 e2 n2).1 =
        Except.error CreateError.SchedulingConflict
      rw [hsecond]
  · refine ⟨sv.newAppt p2 r s2 e2 n2, ?_, ?_⟩
    · rw [Service.create_success hv2 hp2 hnow2 hfresh hclear2]
    · have hov' : IntervalMath.overlaps ⟨s2, e2⟩ ⟨s1, e1⟩ = true := by
        rw [IntervalMath.overlaps_symm] at hov
        exact hov
      have hsecond :
          (Service.mk sv.patients sv.now
            ⟨Store.insertSorted (sv.newAppt p2 r s2 e2 n2) sv.store.appts,
             sv.store.nextId + 1⟩).create p1 r s1 e1 n1 =
          (.error .SchedulingConflict,
           Service.mk sv.patients sv.now
            ⟨Store.insertSorted (sv.newAppt p2 r s2 e2 n2) sv.store.appts,
             sv.store.nextId + 1⟩,
           [.guardReserve r ⟨s1, e1⟩]) :=
        Service.create_conflict hv1 hp1 hnow1 (sv.newAppt p2 r s2 e2 n2)
          (Store.mem_insertSorted.mpr (Or.inl rfl)) rfl rfl hov'
      rw [Service.create_success hv2 hp2 hnow2 hfresh hclear2]
      show ((Service.mk sv.patients sv.now
          ⟨Store.insertSorted (sv.newAppt p2 r s2 e2 n2) sv.store.appts,
           sv.store.nextId + 1⟩).create p1 r s1 e1 n1).1 =
        Except.error CreateError.SchedulingConflict
      rw [hsecond]

/-- Witness for C8: the overlapping requests `[600, 630)` and `[615, 645)`
on resource `r1` over an empty store: in each arrival order the first
succeeds and the second conflicts. -/
theorem C8_concurrent_creates_one_wins_witness :
    (∃ a, ((Service.init ["p1", "p2"] 0).create "p1" "r1" 600 630 "a").1 =
        .ok a ∧
      ((((Service.init ["p1", "p2"] 0).create "p1" "r1" 600 630 "a").2.1).create
          "p2" "r1" 615 645 "b").1 = .error .SchedulingConflict) ∧
    (∃ a, ((Service.init ["p1", "p2"] 0).create "p2" "r1" 615 645 "b").1 =
        .ok a ∧
      ((((Service.init ["p1", "p2"] 0).create "p2" "r1" 615 645 "b").2.1).create
          "p1" "r1" 600 630 "a").1 = .error .SchedulingConflict) :=
  C8_concurrent_creates_one_wins (Service.init ["p1", "p2"] 0)
    "p1" "p2" "r1" "a" "b" 600 630 615 645
    (by decide) (by decide) (by decide) (by decide) (by decide) (by decide)
    (by intro a ha; cases ha) (by decide) (by decide) (by decide)

/-! ### Boundary collaborators: patient CRUD and login -/

/-- Modelled from the spec: the patient payload of the observed HTTP
contract.  Spec §1 classifies patient record storage as a plain keyed CRUD
collaborator outside the scheduling core; the field list {name, email,
phone, birthDate, medicalHistory} is the payload the test scripts submit
and read back. -/
structure PatientPayload where
  name : String
  email : String
  phone : String
  birthDate : String
  medicalHistory : List String
deriving Repr, DecidableEq

/-- Modelled from the spec: a stored patient record — the payload plus the
id assigned at creation. -/
structure PatientRec where
  id : Nat
  name : String
  email : String
  phone : String
  birthDate : String
  medicalHistory : List String
deriving Repr, DecidableEq

/-- Modelled from the spec: the patient store, a simple keyed store
(spec §1) with a fresh-id counter. -/
structure PatientDir where
  recs : List PatientRec
  nextId : Nat
deriving Repr, DecidableEq

/-- Modelled from the spec: POST /api/patients — plain CRUD creation:
assign a fresh id, store the record, respond 201 Created with the stored
record. -/
def PatientDir.createPatient (d : PatientDir) (p : PatientPayload) :
    Nat × PatientRec × PatientDir :=
  let stored : PatientRec :=
    ⟨d.nextId, p.name, p.email, p.phone, p.birthDate, p.medicalHistory⟩
  (201, stored, ⟨stored :: d.recs, d.nextId + 1⟩)

/-- Modelled from the spec: GET /api/patients/{id} — 200 OK with the stored
record when the id is present, 404 otherwise. -/
def PatientDir.getPatientById (d : PatientDir) (id : Nat) :
    Nat × Option PatientRec :=
  match d.recs.find? (fun x => x.id == id) with
  | some x => (200, some x)
  | none => (404, none)

/-- C9: patient creation round-trips — a payload accepted with status 201
can be fetched back by its assigned id with status 200, and the returned
record's name, email, phone, birthDate and medicalHistory equal the
submitted payload's fields while its id equals the requested id. -/
theorem C9_patient_roundtrip (d : PatientDir) (p : PatientPayload) :
    ∃ st stored d', d.createPatient p = (st, stored, d') ∧ st = 201 ∧
      d'.getPatientById stored.id = (200, some stored) ∧
      stored.name = p.name ∧ stored.email = p.email ∧
      stored.phone = p.phone ∧ stored.birthDate = p.birthDate ∧
      stored.medicalHistory = p.medicalHistory := by
  refine ⟨201, _, _, rfl, rfl, ?_, rfl, rfl, rfl, rfl, rfl⟩
  rw [PatientDir.getPatientById]
  simp [PatientDir.createPatient, List.find?]

/-- Witness for C9 at the payload of the patient-creation test. -/
theorem C9_patient_roundtrip_witness :
    ∃ st stored d',
      (PatientDir.mk [] 0).createPatient
        ⟨"Test Patient", "test.patient@example.com", "+5511999999999",
         "1990-01-01",
         ["No known allergies", "Previous knee surgery in 2018"]⟩ =
        (st, stored, d') ∧ st = 201 ∧
      d'.getPatientById stored.id = (200, some stored) ∧
      stored.name = "Test Patient" ∧
      stored.email = "test.patient@example.com" ∧
      stored.phone = "+5511999999999" ∧
      stored.birthDate = "1990-01-01" ∧
      stored.medicalHistory =
        ["No known allergies", "Previous knee surgery in 2018"] :=
  C9_patient_roundtrip (PatientDir.mk [] 0)
    ⟨"Test Patient", "test.patient@example.com", "+5511999999999",
     "1990-01-01", ["No known allergies", "Previous knee surgery in 2018"]⟩

/-- Modelled from the spec: a user account of the authentication layer,
an external collaborator of the scheduling core (spec §6). -/
structure User where
  email : String
  name : String
deriving Repr, DecidableEq

/-- Modelled from the spec: the authentication database — registered users
with their passwords. -/
structure AuthDb where
  users : List (User × String)
deriving Repr, DecidableEq

/-- Lower-case a string character by character; the observed login contract
compares the returned and submitted emails case-insensitively. -/
def lowerStr (s : String) : String :=
  ⟨s.data.map Char.toLower⟩

/-- Modelled from the spec: the login response body, a user object plus a
token string — the shape the authentication boundary returns on success. -/
structure LoginResponse where
  user : User
  token : String
deriving Repr, DecidableEq

/-- Modelled from the spec: POST /api/auth/login, the authentication layer
of spec §6 — looks the submitted email up case-insensitively and checks the
password; 200 OK with a user object and an issued token string on success,
401 otherwise. -/
def AuthDb.login (db : AuthDb) (email password : String) :
    Nat × Option LoginResponse :=
  match db.users.find?
      (fun up => lowerStr up.1.email == lowerStr email && up.2 == password) with
  | some up => (200, some ⟨up.1, String.append "tok-" up.1.email⟩)
  | none => (401, none)

/-- C10: a successful login returns status 200 with a body holding a user
object and a token string, and the returned user's email equals the
submitted email up to letter case. -/
theorem C10_login_email_case_insensitive (db : AuthDb)
    (email password : String) (resp : LoginResponse)
    (hok : (db.login email password).2 = some resp) :
    (db.login email password).1 = 200 ∧
    lowerStr resp.user.email = lowerStr email := by
  unfold AuthDb.login at hok ⊢
  cases hf : db.users.find?
      (fun up => lowerStr up.1.email == lowerStr email && up.2 == password) with
  | none =>
      rw [hf] at hok
      exact Option.noConfusion hok
  | some up =>
      rw [hf] at hok
      have hpred := List.find?_some hf
      simp only [Bool.and_eq_true, beq_iff_eq] at hpred
      have hresp : resp = ⟨up.1, String.append "tok-" up.1.email⟩ :=
        (Option.some.inj hok).symm
      rw [hresp]
      exact ⟨rfl, hpred.1⟩

/-- Witness for C10: logging in as `Admin@DuduFisio.com` against the
account registered as `admin@dudufisio.com` succeeds with status 200, and
the emails agree case-insensitively. -/
theorem C10_login_email_case_insensitive_witness :
    ((AuthDb.mk [(⟨"admin@dudufisio.com", "Admin"⟩, "demo123456")]).login
        "Admin@DuduFisio.com" "demo123456").1 = 200 ∧
    lowerStr (LoginResponse.mk ⟨"admin@dudufisio.com", "Admin"⟩
        (String.append "tok-" "admin@dudufisio.com")).user.email =
      lowerStr "Admin@DuduFisio.com" :=
  C10_login_email_case_insensitive
    (AuthDb.mk [(⟨"admin@dudufisio.com", "Admin"⟩, "demo123456")])
    "Admin@DuduFisio.com" "demo123456"
    (LoginResponse.mk ⟨"admin@dudufisio.com", "Admin"⟩
      (String.append "tok-" "admin@dudufisio.com"))
    (by decide)

end DudufisioAI
